import Mathlib

/-!
Verification of the SDS `sds_mem_tools` core: a shallow embedding of the
`MemView` buffer type (memview_methods.c) and the `MPointer` bound-view type
(mpointer_methods.c), together with theorems settling the specification
claims about them.

Modelling conventions:

* Byte storage is a `List Nat` of byte values; a C `NULL` data pointer is
  `Option.none`.  The C `size` field is kept as a separate `Nat`, because
  the code can leave `size` and the actual storage out of sync on failure
  paths.
* The payload-type tag (`self->type`, compared against `STR_MEM_TYPE`) is a
  two-value enumeration: `text` for `STR_MEM_TYPE` and `noTag` for the
  never-assigned default.
* Inputs coming from the host object system are modelled by `PyObj`:
  either a text object carrying its byte sequence, or a non-text object
  (`PyUnicode_Check` failure).
* Allocation failure (`PyMem_RawMalloc` / `PyMem_RawRealloc` returning
  `NULL`) is modelled by an explicit `allocOk : Bool` oracle where a claim
  depends on it.
* Reads through a C pointer are modelled with `List.getD _ _ 0`; whenever a
  theorem relies on a concrete evaluation, its input keeps every access in
  bounds, except where an out-of-bounds access is exactly the defect being
  exhibited (stated in the theorem's comment).
* Bit numbering is MSB-first inside each byte, continuous across bytes,
  exactly as in the C code (`byte = idx >> 3`, `bit = 7 - (idx & 7)`).
-/

namespace SDS

/-- The closed set of error kinds of the specification (§7 plus the
`NullReference` kind named in §4.2).  The C code surfaces them as Python
exceptions: `TypeError` ↦ `typeMismatch`, `ValueError` on length mismatch ↦
`sizeMismatch`, `ValueError` on bad argument ↦ `invalidArgument`,
`ValueError` on slice range ↦ `outOfRange`, `PyErr_NoMemory`/`MemoryError` ↦
`outOfMemory`, `ValueError` on oversized memory ↦ `sizeOverflow`. -/
inductive Err where
  | typeMismatch
  | sizeMismatch
  | invalidArgument
  | outOfRange
  | outOfMemory
  | sizeOverflow
  | nullReference
deriving DecidableEq, Repr

/-- The payload-type tag stored in `MemView.type`.  `text` is
`STR_MEM_TYPE`; `noTag` is the default of a buffer whose tag was never set
by a successful `assign`. -/
inductive MemTag where
  | noTag
  | text
deriving DecidableEq, Repr

/-- The `MemView` C struct: `data` (owned storage, `none` for `NULL`),
`size` (byte count field) and `type` (payload tag field). -/
structure MemView where
  data : Option (List Nat)
  size : Nat
  type : MemTag
deriving DecidableEq, Repr

/-- A host-object input: a text object together with the byte sequence it
marshals to, or an object failing `PyUnicode_Check`. -/
inductive PyObj where
  | str (bytes : List Nat)
  | nonStr
deriving DecidableEq, Repr

/-- The stored bytes of a view; an unset (`NULL`) pointer reads as the
empty store. -/
def memBytes (m : MemView) : List Nat := m.data.getD []

/-- `byteAt m i` models the C read `((unsigned char*)m->data)[i]`.
Out-of-bounds reads are modelled as 0; theorems that evaluate concretely
keep such reads in bounds unless the out-of-bounds read is itself the
defect under study. -/
def byteAt (m : MemView) (i : Nat) : Nat := (memBytes m).getD i 0

/-- `bitGet l idx` is source-bit reading as written in the C code:
`(l[idx >> 3] >> (7 - (idx & 7))) & 1`, MSB-first inside each byte. -/
def bitGet (l : List Nat) (idx : Nat) : Bool :=
  Nat.testBit (l.getD (idx / 8) 0) (7 - idx % 8)

/-- One output byte of a zero-initialized destination after the C bit-copy
loops ran over its 8 bit positions: position `k` (MSB-first) is ORed with
`1 << (7 - k)` whenever the loop set that bit.  This is the per-byte final
state of `dst[dst_byte] |= 1u << dst_bit` starting from a calloc'd byte. -/
def packByte (g : Nat → Bool) : Nat :=
  (List.range 8).foldl (fun acc k => if g k then acc ||| (1 <<< (7 - k)) else acc) 0

/-- The final contents of a `calloc`-zeroed destination of `nbytes` bytes
after the C loop `for i in [0, nbits): if f i then set dst bit i` ran:
byte `j` accumulates exactly its bit positions `j*8+k` with `k < 8` that
lie below `nbits` and whose source bit is set. -/
def packBits (f : Nat → Bool) (nbits nbytes : Nat) : List Nat :=
  (List.range nbytes).map (fun j => packByte (fun k => decide (j * 8 + k < nbits) && f (j * 8 + k)))

/-- `dst[i >> 3] |= 1u << (7 - (i & 7))`: set destination bit `i`
(MSB-first) in a byte list. -/
def setBitMSB (l : List Nat) (i : Nat) : List Nat :=
  l.set (i / 8) (l.getD (i / 8) 0 ||| (1 <<< (7 - i % 8)))

/-- `MemView_new`: fresh object with `data = NULL`, `size = 0` and the tag
never set. -/
def MemView_new : MemView := ⟨none, 0, MemTag.noTag⟩

/-- `MemView_assign` from memview_methods.c.  Returns the updated receiver
state together with the call's result.  The C control flow, in order:
`PyUnicode_Check` failure → `TypeError` before any mutation; then, when the
new length differs from `self->size`, the code first overwrites
`self->size`, then calls malloc/realloc — on allocation failure
(`allocOk = false`) `self->data` has already been assigned the `NULL`
return of realloc and `self->size` the new length when `PyErr_NoMemory` is
reported; the tag is set only after the allocation block.  On the
equal-length path no reallocation happens and `memcpy` fills the existing
storage (a `NULL` store stays `NULL`, which only arises for length 0). -/
def MemView_assign (self : MemView) (other : PyObj) (allocOk : Bool) :
    MemView × Except Err Unit :=
  match other with
  | PyObj.nonStr => (self, Except.error Err.typeMismatch)
  | PyObj.str bytes =>
    if self.size = bytes.length then
      ({ self with type := MemTag.text, data := self.data.map (fun _ => bytes) }, Except.ok ())
    else if allocOk then
      (⟨some bytes, bytes.length, MemTag.text⟩, Except.ok ())
    else
      ({ self with size := bytes.length, data := none }, Except.error Err.outOfMemory)

/-- `MemView_dealloc` frees the storage as-is — there is no `memset`
before `PyMem_RawFree` — then nulls the pointer and zeroes the size field.
`freed` records the bytes still sitting in the storage block at the moment
`PyMem_RawFree` is called. -/
structure DeallocResult where
  freed : Option (List Nat)
  final : MemView
deriving DecidableEq, Repr

/-- The body of `MemView_dealloc` from memview_methods.c. -/
def MemView_dealloc (self : MemView) : DeallocResult :=
  match self.data with
  | some stored => ⟨some stored, { self with data := none, size := 0 }⟩
  | none => ⟨none, self⟩

/-- `MemView_init` (the `construct` entry point): after argument parsing it
deallocates any existing storage, calls `MemView_assign` and IGNORES its
result, then returns 0 unconditionally.  The triple is (final state, the C
return value of `tp_init`, the pending error `MemView_assign` left set, if
any).  In the host convention, return value 0 signals success and -1
signals failure. -/
def MemView_init (self : MemView) (input : PyObj) (allocOk : Bool) :
    MemView × Int × Option Err :=
  let s1 := if self.data.isSome then (MemView_dealloc self).final else self
  let r := MemView_assign s1 input allocOk
  (r.1, 0, match r.2 with | Except.ok _ => none | Except.error e => some e)

/-- `MemView_value`: requires the `Text` tag, then returns a fresh copy of
the `size` stored bytes.  (The oversized-`size` branch of the C code is
unreachable for the sizes modelled here; note that in the source it sets an
error without returning.) -/
def MemView_value (self : MemView) : Except Err (List Nat) :=
  if self.type = MemTag.text then
    Except.ok ((List.range self.size).map (fun i => byteAt self i))
  else Except.error Err.typeMismatch

/-- `MemView_xor`: checks that the OTHER operand is a `MemView` carrying
the `Text` tag and has the receiver's size, then XORs `self.size` byte
pairs.  The receiver's own tag is never inspected. -/
def MemView_xor (self : MemView) (other : MemView) : Except Err MemView :=
  if other.type = MemTag.text then
    if other.size = self.size then
      Except.ok ⟨some ((List.range self.size).map (fun i => byteAt self i ^^^ byteAt other i)),
        self.size, MemTag.text⟩
    else Except.error Err.sizeMismatch
  else Except.error Err.typeMismatch

/-- `MemView_lshift`: requires the receiver's `Text` tag and a positive
shift.  If `shift ≥ size*8` the result is a calloc'd all-zero buffer of the
same size; otherwise a calloc'd buffer of the same size in which, for every
destination bit `i < size*8 - shift`, source bit `i + shift` is copied. -/
def MemView_lshift (self : MemView) (shift : Int) : Except Err MemView :=
  if self.type ≠ MemTag.text then Except.error Err.typeMismatch
  else if shift ≤ 0 then Except.error Err.invalidArgument
  else if self.size * 8 ≤ shift.toNat then
    Except.ok ⟨some (List.replicate self.size 0), self.size, MemTag.text⟩
  else
    Except.ok ⟨some (packBits (fun i => bitGet (memBytes self) (i + shift.toNat))
      (self.size * 8 - shift.toNat) self.size), self.size, MemTag.text⟩

/-- `MemView_concat`: checks only the OTHER operand's tag (and in the
source the failed `MEMVIEWTYPE_CHECK` does not even return).  It then
allocates `self.size + other.size` bytes and — as written in the source —
copies `self.size` bytes FROM `other->data` into the first half and
`other.size` bytes from `other->data` into the second half.  Reading
`self.size` bytes from `other` can run past `other`'s storage; such reads
are modelled as 0 and avoided in concrete evaluations. -/
def MemView_concat (self : MemView) (other : MemView) : Except Err MemView :=
  if other.type = MemTag.text then
    Except.ok ⟨some (((List.range self.size).map (fun i => byteAt other i)) ++
      ((List.range other.size).map (fun i => byteAt other i))),
      self.size + other.size, MemTag.text⟩
  else Except.error Err.typeMismatch

/-- `MemView_slicing` as written in the source: after the tag, argument and
range checks it computes `out_bytes = (offset + 7) / 8`, creates the result
object WITHOUT ever allocating or zeroing `result->data` (the destination
starts as the arbitrary contents `uninitData`), and then loops `i` over
`[0, out_bytes)` — bytes, not bits — copying, for each `i`, the bit read
from byte `origin + ((origin + i) >> 3)` of the source (the `origin` offset
is applied twice: once as a byte offset on the `src` pointer and once
inside the bit index), at bit position `7 - ((origin + i) & 7)`, into
destination bit `i`.  Out-of-bounds source reads are modelled as 0. -/
def MemView_slicing (self : MemView) (origin offset : Int) (uninitData : List Nat) :
    Except Err MemView :=
  if self.type ≠ MemTag.text then Except.error Err.typeMismatch
  else if origin < 0 ∨ offset ≤ 0 then Except.error Err.invalidArgument
  else
    let og := origin.toNat
    let off := offset.toNat
    if self.size * 8 < og + off then Except.error Err.outOfRange
    else
      let outBytes := (off + 7) / 8
      let dst := (List.range outBytes).foldl (fun d i =>
        if Nat.testBit ((memBytes self).getD (og + (og + i) / 8) 0) (7 - (og + i) % 8) then
          setBitMSB d i
        else d) uninitData
      Except.ok ⟨some dst, outBytes, MemTag.text⟩

/-- `MemView_bsize`: requires the `Text` tag, returns the `size` field. -/
def MemView_bsize (self : MemView) : Except Err Nat :=
  if self.type = MemTag.text then Except.ok self.size else Except.error Err.typeMismatch

/-- The `MPointer` C struct: a borrowed region (`none` when the pointer was
never set) and its length.  The `owner` back-reference carries no data
relevant to the claims and is omitted. -/
structure MPointer where
  pointer : Option (List Nat)
  size : Nat
deriving DecidableEq, Repr

/-- `PY_SSIZE_T_MAX` on a 64-bit host. -/
def PY_SSIZE_T_MAX : Nat := 2 ^ 63 - 1

/-- `MPointer_value` from mpointer_methods.c: a `NULL` pointer is reported
through `PyErr_NoMemory()` — the `outOfMemory` error kind — then the size
guard, then a fresh copy of the referenced bytes. -/
def MPointer_value (self : MPointer) : Except Err (List Nat) :=
  match self.pointer with
  | none => Except.error Err.outOfMemory
  | some region =>
    if PY_SSIZE_T_MAX < self.size then Except.error Err.sizeOverflow
    else Except.ok ((List.range self.size).map (fun i => region.getD i 0))

/-!
## Helper lemmas
-/

/-- Reading a mapped range with `getD`: in-range indices give the mapped
value, out-of-range indices give the default 0. -/
theorem getD_map_range_nat (h : Nat → Nat) (n j : Nat) :
    ((List.range n).map h).getD j 0 = if j < n then h j else 0 := by
  by_cases hj : j < n
  · rw [List.getD_eq_getElem?_getD, List.getElem?_map, List.getElem?_range hj]
    simp [hj]
  · rw [List.getD_eq_getElem?_getD, List.getElem?_map,
      List.getElem?_eq_none (by simpa using Nat.le_of_not_lt hj)]
    simp [hj]

/-- A bit of the OR-accumulating fold: it is set iff it was set in the
accumulator or contributed by some list element. -/
theorem testBit_foldl_or (g : Nat → Bool) (t : Nat) :
    ∀ (L : List Nat) (acc : Nat),
      Nat.testBit (L.foldl (fun a k => if g k then a ||| (1 <<< (7 - k)) else a) acc) t =
        (Nat.testBit acc t || L.any (fun k => g k && Nat.testBit (1 <<< (7 - k)) t))
  | [], acc => by simp
  | k :: L, acc => by
    simp only [List.foldl_cons, List.any_cons]
    rw [testBit_foldl_or g t L]
    cases hg : g k
    · simp [hg]
    · simp [hg, Nat.testBit_or, Bool.or_assoc]

/-- Bit `m` (MSB-first, so `testBit` position `7 - m`) of a packed byte is
exactly the `m`-th entry of the bit generator. -/
theorem packByte_testBit (g : Nat → Bool) (m : Nat) (hm : m < 8) :
    Nat.testBit (packByte g) (7 - m) = g m := by
  unfold packByte
  rw [testBit_foldl_or]
  simp only [Nat.zero_testBit, Bool.false_or, Nat.one_shiftLeft, Nat.testBit_two_pow]
  cases hg : g m
  · rw [List.any_eq_false]
    intro k hk hP
    have hk8 : k < 8 := List.mem_range.mp hk
    rcases Bool.and_eq_true_iff.mp hP with ⟨hgk, hkm⟩
    have hke : (7 : Nat) - k = 7 - m := of_decide_eq_true hkm
    have hkm' : k = m := by omega
    rw [hkm', hg] at hgk
    exact Bool.false_ne_true hgk
  · rw [List.any_eq_true]
    exact ⟨m, List.mem_range.mpr hm, by simp [hg]⟩

/-- Reading one byte of `packBits`. -/
theorem packBits_getD (f : Nat → Bool) (nbits nbytes j : Nat) :
    (packBits f nbits nbytes).getD j 0 =
      if j < nbytes then
        packByte (fun k => decide (j * 8 + k < nbits) && f (j * 8 + k))
      else 0 :=
  getD_map_range_nat _ nbytes j

/-- Reading one bit of `packBits`: set iff it lies inside the destination
buffer, below the copied bit count, and the generator sets it. -/
theorem packBits_bitGet (f : Nat → Bool) (nbits nbytes i : Nat) :
    bitGet (packBits f nbits nbytes) i =
      (decide (i < nbytes * 8) && decide (i < nbits) && f i) := by
  unfold bitGet
  rw [packBits_getD]
  by_cases hj : i / 8 < nbytes
  · rw [if_pos hj]
    have h8 : i % 8 < 8 := Nat.mod_lt _ (by norm_num)
    rw [packByte_testBit _ _ h8]
    have hi : i / 8 * 8 + i % 8 = i := by
      rw [Nat.mul_comm]
      exact Nat.div_add_mod i 8
    have hlt : i < nbytes * 8 := (Nat.div_lt_iff_lt_mul (by norm_num)).mp hj
    rw [hi]
    simp [hlt]
  · rw [if_neg hj]
    have hge : ¬ i < nbytes * 8 := fun h =>
      hj ((Nat.div_lt_iff_lt_mul (by norm_num)).mpr h)
    simp [hge]

/-- Successful `xor` unfolded. -/
theorem xor_ok (a b : MemView) (htb : b.type = MemTag.text) (h : b.size = a.size) :
    MemView_xor a b =
      Except.ok ⟨some ((List.range a.size).map (fun i => byteAt a i ^^^ byteAt b i)),
        a.size, MemTag.text⟩ := by
  unfold MemView_xor
  rw [if_pos htb, if_pos h]

/-- Successful `value` unfolded. -/
theorem value_ok (m : MemView) (ht : m.type = MemTag.text) :
    MemView_value m = Except.ok ((List.range m.size).map (fun i => byteAt m i)) := by
  unfold MemView_value
  rw [if_pos ht]

/-- Reading a byte of a buffer literal whose storage is a mapped range. -/
theorem byteAt_mk_map (h : Nat → Nat) (n sz : Nat) (t : MemTag) (i : Nat) :
    byteAt ⟨some ((List.range n).map h), sz, t⟩ i = if i < n then h i else 0 :=
  getD_map_range_nat h n i

/-!
## Claim theorems
-/

/-- C1 (code bug exhibited): `MemView_concat` as written copies `other`'s
bytes into BOTH halves of the result (`memcpy(result->data, other->data,
self->size)` on the first half).  For `a` holding byte 0x41 (`"A"`) and `b`
holding byte 0x42 (`"B"`), the code produces bytes `[0x42, 0x42]`, while
the claim requires the first `a.byteSize()` bytes to equal `a`'s bytes,
i.e. `[0x41, 0x42]`. -/
theorem concat_copies_other_into_both_halves :
    MemView_concat ⟨some [65], 1, MemTag.text⟩ ⟨some [66], 1, MemTag.text⟩ =
      Except.ok ⟨some [66, 66], 2, MemTag.text⟩ ∧
    ([66, 66] : List Nat) ≠ [65, 66] := by
  constructor
  · rfl
  · decide

/-- C2 (code bug exhibited): on the spec's own example — source bytes
`[0xff, 0x00]`, `origin = 4`, `offset = 8` — `MemView_slicing` never
allocates or zeroes the result storage (here the arbitrary initial
contents `[0x00]`), loops over `out_bytes = 1` positions instead of the 8
requested bits, and reads the source at byte `origin + (origin+i)/8 = 4`,
out of bounds for the 2-byte buffer (modelled as reading 0).  The result
byte is 0x00 where the claim requires the single byte 0xf0. -/
theorem slicing_diverges_on_spec_example :
    MemView_slicing ⟨some [255, 0], 2, MemTag.text⟩ 4 8 [0] =
      Except.ok ⟨some [0], 1, MemTag.text⟩ ∧
    ([0] : List Nat) ≠ [240] := by
  constructor
  · rfl
  · decide

/-- C4 (confirmed): for every pair of Text-tagged buffers of equal size,
XOR-ing with the same operand twice restores the original value:
`xor(xor(a, b), b).value() == a.value()`. -/
theorem xor_self_inverse (a b : MemView)
    (hta : a.type = MemTag.text) (htb : b.type = MemTag.text)
    (hsz : a.size = b.size) :
    ∃ r r2 : MemView,
      MemView_xor a b = Except.ok r ∧
      MemView_xor r b = Except.ok r2 ∧
      MemView_value r2 = MemView_value a := by
  refine ⟨_, _, xor_ok a b htb hsz.symm, xor_ok _ b htb hsz.symm, ?_⟩
  rw [value_ok _ rfl, value_ok a hta]
  congr 1
  apply List.map_congr_left
  intro i hi
  have hi' : i < a.size := List.mem_range.mp hi
  simp only [byteAt_mk_map, hi', if_pos]
  rw [Nat.xor_cancel_right]

/-- Witness for `xor_self_inverse` at 2-byte buffers `[0x0f, 0x00]` and
`[0x00, 0x0f]`. -/
theorem xor_self_inverse_witness :
    ∃ r r2 : MemView,
      MemView_xor ⟨some [15, 0], 2, MemTag.text⟩ ⟨some [0, 15], 2, MemTag.text⟩ =
        Except.ok r ∧
      MemView_xor r ⟨some [0, 15], 2, MemTag.text⟩ = Except.ok r2 ∧
      MemView_value r2 = MemView_value ⟨some [15, 0], 2, MemTag.text⟩ :=
  xor_self_inverse ⟨some [15, 0], 2, MemTag.text⟩ ⟨some [0, 15], 2, MemTag.text⟩ rfl rfl rfl

/-- C3 (confirmed): `lshift` on a Text-tagged buffer with a positive shift:
when the shift reaches the total bit length the result is an all-zero
buffer of the same size; otherwise the result has the same size, every
destination bit `i` below `size*8 - shift` equals source bit `i + shift`
(MSB-first), and every remaining bit is zero.  In particular, shifting the
one-byte buffer `0xff` by 4 yields `0xf0`. -/
theorem lshift_bit_semantics :
    (∀ (a : MemView) (shift : Int), a.type = MemTag.text → 0 < shift →
      ∃ r : MemView,
        MemView_lshift a shift = Except.ok r ∧
        r.size = a.size ∧ r.type = MemTag.text ∧
        (a.size * 8 ≤ shift.toNat → r.data = some (List.replicate a.size 0)) ∧
        (shift.toNat < a.size * 8 →
          (∀ i, i < a.size * 8 - shift.toNat →
            bitGet (memBytes r) i = bitGet (memBytes a) (i + shift.toNat)) ∧
          (∀ i, a.size * 8 - shift.toNat ≤ i → bitGet (memBytes r) i = false))) ∧
    (∃ rx : MemView,
      MemView_lshift ⟨some [255], 1, MemTag.text⟩ 4 = Except.ok rx ∧
      MemView_value rx = Except.ok [240]) := by
  constructor
  · intro a shift hta hs
    have hnt : ¬ a.type ≠ MemTag.text := by simp [hta]
    have hns : ¬ shift ≤ 0 := not_le.mpr hs
    by_cases hbig : a.size * 8 ≤ shift.toNat
    · refine ⟨⟨some (List.replicate a.size 0), a.size, MemTag.text⟩, ?_, rfl, rfl,
        fun _ => rfl, ?_⟩
      · unfold MemView_lshift
        rw [if_neg hnt, if_neg hns, if_pos hbig]
      · intro hlt
        exact absurd hlt (not_lt.mpr hbig)
    · push_neg at hbig
      refine ⟨⟨some (packBits (fun i => bitGet (memBytes a) (i + shift.toNat))
          (a.size * 8 - shift.toNat) a.size), a.size, MemTag.text⟩, ?_, rfl, rfl, ?_, ?_⟩
      · unfold MemView_lshift
        rw [if_neg hnt, if_neg hns, if_neg (not_le.mpr hbig)]
      · intro h
        exact absurd hbig (not_lt.mpr h)
      · intro _
        constructor
        · intro i hi
          show bitGet (packBits (fun j => bitGet (memBytes a) (j + shift.toNat))
            (a.size * 8 - shift.toNat) a.size) i = _
          rw [packBits_bitGet]
          have h1 : i < a.size * 8 := by omega
          simp [h1, hi]
        · intro i hi
          show bitGet (packBits (fun j => bitGet (memBytes a) (j + shift.toNat))
            (a.size * 8 - shift.toNat) a.size) i = false
          rw [packBits_bitGet]
          have h1 : ¬ i < a.size * 8 - shift.toNat := not_lt.mpr hi
          simp [h1]
  · exact ⟨⟨some [240], 1, MemTag.text⟩, rfl, rfl⟩

/-- Witness for `lshift_bit_semantics` at the one-byte buffer `0xff`
shifted by 4. -/
theorem lshift_bit_semantics_witness :
    ∃ r : MemView,
      MemView_lshift ⟨some [255], 1, MemTag.text⟩ 4 = Except.ok r ∧
      r.size = 1 ∧ r.type = MemTag.text ∧
      (1 * 8 ≤ (4 : Int).toNat → r.data = some (List.replicate 1 0)) ∧
      ((4 : Int).toNat < 1 * 8 →
        (∀ i, i < 1 * 8 - (4 : Int).toNat →
          bitGet (memBytes r) i =
            bitGet (memBytes ⟨some [255], 1, MemTag.text⟩) (i + (4 : Int).toNat)) ∧
        (∀ i, 1 * 8 - (4 : Int).toNat ≤ i → bitGet (memBytes r) i = false)) :=
  lshift_bit_semantics.1 ⟨some [255], 1, MemTag.text⟩ 4 rfl (by decide)

/-- C5 (counterexample): `MemView_xor` never inspects the receiver's tag,
so XOR on a receiver that carries no tag at all succeeds instead of
failing with `TypeMismatch` as the claim requires for every operand of
every text-interpreting operation. -/
theorem xor_ignores_receiver_tag :
    MemView_xor ⟨some [65], 1, MemTag.noTag⟩ ⟨some [66], 1, MemTag.text⟩ =
      Except.ok ⟨some [3], 1, MemTag.text⟩ ∧
    MemView_xor ⟨some [65], 1, MemTag.noTag⟩ ⟨some [66], 1, MemTag.text⟩ ≠
      Except.error Err.typeMismatch := by
  constructor
  · rfl
  · rw [show MemView_xor ⟨some [65], 1, MemTag.noTag⟩ ⟨some [66], 1, MemTag.text⟩ =
      Except.ok ⟨some [3], 1, MemTag.text⟩ from rfl]
    exact fun h => Except.noConfusion h

/-- C5 (amended): the tag checks the code actually performs.  `value`,
`lshift`, `slicing` and `bsize` fail with `TypeMismatch` whenever the
RECEIVER does not carry the `Text` tag; `xor` and `concat` fail with
`TypeMismatch` whenever the OTHER operand does not carry the `Text` tag —
but neither `xor` nor `concat` checks the receiver's tag. -/
theorem tag_checks_as_implemented :
    (∀ m : MemView, m.type ≠ MemTag.text →
      MemView_value m = Except.error Err.typeMismatch) ∧
    (∀ (m : MemView) (s : Int), m.type ≠ MemTag.text →
      MemView_lshift m s = Except.error Err.typeMismatch) ∧
    (∀ (m : MemView) (og off : Int) (u : List Nat), m.type ≠ MemTag.text →
      MemView_slicing m og off u = Except.error Err.typeMismatch) ∧
    (∀ m : MemView, m.type ≠ MemTag.text →
      MemView_bsize m = Except.error Err.typeMismatch) ∧
    (∀ a b : MemView, b.type ≠ MemTag.text →
      MemView_xor a b = Except.error Err.typeMismatch) ∧
    (∀ a b : MemView, b.type ≠ MemTag.text →
      MemView_concat a b = Except.error Err.typeMismatch) := by
  refine ⟨?_, ?_, ?_, ?_, ?_, ?_⟩
  · intro m h; simp [MemView_value, h]
  · intro m s h; simp [MemView_lshift, h]
  · intro m og off u h; simp [MemView_slicing, h]
  · intro m h; simp [MemView_bsize, h]
  · intro a b h; simp [MemView_xor, h]
  · intro a b h; simp [MemView_concat, h]

/-- Witness for `tag_checks_as_implemented` at concrete untagged
operands. -/
theorem tag_checks_as_implemented_witness :
    MemView_value ⟨some [65], 1, MemTag.noTag⟩ = Except.error Err.typeMismatch ∧
    MemView_lshift ⟨some [65], 1, MemTag.noTag⟩ 1 = Except.error Err.typeMismatch ∧
    MemView_slicing ⟨some [65], 1, MemTag.noTag⟩ 0 1 [0] = Except.error Err.typeMismatch ∧
    MemView_bsize ⟨some [65], 1, MemTag.noTag⟩ = Except.error Err.typeMismatch ∧
    MemView_xor ⟨some [65], 1, MemTag.text⟩ ⟨some [66], 1, MemTag.noTag⟩ =
      Except.error Err.typeMismatch ∧
    MemView_concat ⟨some [65], 1, MemTag.text⟩ ⟨some [66], 1, MemTag.noTag⟩ =
      Except.error Err.typeMismatch :=
  ⟨tag_checks_as_implemented.1 _ (by decide),
   tag_checks_as_implemented.2.1 _ 1 (by decide),
   tag_checks_as_implemented.2.2.1 _ 0 1 [0] (by decide),
   tag_checks_as_implemented.2.2.2.1 _ (by decide),
   tag_checks_as_implemented.2.2.2.2.1 _ _ (by decide),
   tag_checks_as_implemented.2.2.2.2.2 _ _ (by decide)⟩

/-- C6 (code bug exhibited): `MemView_assign` overwrites `self->size` with
the new length BEFORE attempting reallocation, and on reallocation failure
stores realloc's `NULL` into `self->data`.  Assigning a 2-byte value to a
1-byte buffer under allocation failure reports `OutOfMemory` with the
receiver's size already changed to 2 and its data pointer lost — not the
unchanged prior state the claim requires. -/
theorem assign_oom_mutates_receiver :
    MemView_assign ⟨some [65], 1, MemTag.text⟩ (PyObj.str [66, 67]) false =
      (⟨none, 2, MemTag.text⟩, Except.error Err.outOfMemory) ∧
    (⟨none, 2, MemTag.text⟩ : MemView) ≠ ⟨some [65], 1, MemTag.text⟩ := by
  constructor
  · rfl
  · decide

/-- C7 (code bug exhibited): `MemView_dealloc` calls `PyMem_RawFree` on the
storage without any prior `memset`; for a buffer holding bytes
`[0x41, 0x42]` the block is freed still containing `[0x41, 0x42]`, not the
zero-filled contents the zero-then-free contract requires. -/
theorem dealloc_frees_without_zeroing :
    (MemView_dealloc ⟨some [65, 66], 2, MemTag.text⟩).freed = some [65, 66] ∧
    some ([65, 66] : List Nat) ≠ some (List.replicate 2 0) := by
  constructor
  · rfl
  · decide

/-- C8 (counterexample): `MPointer_value` on a never-set region reports
the error through `PyErr_NoMemory()`, i.e. the `OutOfMemory` kind, not a
`NullReference` kind. -/
theorem mpointer_null_reports_oom :
    MPointer_value ⟨none, 0⟩ = Except.error Err.outOfMemory ∧
    MPointer_value ⟨none, 0⟩ ≠ Except.error Err.nullReference := by
  constructor
  · rfl
  · rw [show MPointer_value ⟨none, 0⟩ = Except.error Err.outOfMemory from rfl]
    intro h
    exact absurd (Except.error.inj h) (by decide)

/-- C8 (amended): on every `MPointer` whose region was never set,
`value()` fails — but with the `OutOfMemory` error kind, never with
`NullReference`. -/
theorem mpointer_null_error_kind (m : MPointer) (h : m.pointer = none) :
    MPointer_value m = Except.error Err.outOfMemory ∧
    MPointer_value m ≠ Except.error Err.nullReference := by
  constructor
  · simp [MPointer_value, h]
  · simp [MPointer_value, h]

/-- Witness for `mpointer_null_error_kind` at the concrete never-set
view. -/
theorem mpointer_null_error_kind_witness :
    MPointer_value ⟨none, 0⟩ = Except.error Err.outOfMemory ∧
    MPointer_value ⟨none, 0⟩ ≠ Except.error Err.nullReference :=
  mpointer_null_error_kind ⟨none, 0⟩ rfl

/-- C9 (code bug exhibited): constructing from a non-text input leaves the
state `Uninitialized` (`data = NULL`, `size = 0`, no tag) and leaves the
`TypeMismatch` error pending, but `MemView_init` IGNORES `MemView_assign`'s
failure and returns 0 — the success code — instead of -1, so construction
does not fail as the claim requires. -/
theorem init_swallows_assign_failure :
    MemView_init MemView_new PyObj.nonStr true =
      (⟨none, 0, MemTag.noTag⟩, 0, some Err.typeMismatch) ∧
    (0 : Int) ≠ -1 := by
  constructor
  · rfl
  · decide

/-- C10 (confirmed): constructing from the empty text succeeds with no
pending error; the resulting buffer has `size = 0` and empty storage, its
`bsize` is 0 and its `value` is the empty byte sequence. -/
theorem construct_empty_text :
    MemView_init MemView_new (PyObj.str []) true =
      (⟨none, 0, MemTag.text⟩, 0, none) ∧
    memBytes ⟨none, 0, MemTag.text⟩ = [] ∧
    MemView_value ⟨none, 0, MemTag.text⟩ = Except.ok [] ∧
    MemView_bsize ⟨none, 0, MemTag.text⟩ = Except.ok 0 := by
  refine ⟨rfl, rfl, rfl, rfl⟩

end SDS
